import Mathlib

/-!
Verification development for the emergency-alert mobile client's core:
the offline-first sync queue engine (OfflineSyncService), the call
lifecycle handlers (CallService), and the response producer
(ResponseService / LocationService), shallowly embedded from the
TypeScript source.

Conventions of the embedding:
- SQLite tables are lists of row records; SQL UPDATE/DELETE become
  pure list transformations; ids are strings (PRIMARY KEY uniqueness
  appears as Nodup hypotheses on the list of ids where needed).
- Timestamps (created_at, Date.now()) are naturals (ms since epoch).
- External collaborators (fetch, NetInfo, expo-location, JSON
  serialization) are oracle parameters: SyncEnv supplies the per-item
  delivery outcome and the connectivity answers queried after
  failures; a Codec supplies the JSON stringify/parse pair.
-/

namespace EmergencyAlert

/-- Queue item status, per the sync_queue CHECK constraint. -/
inductive SyncStatus where
  | pending
  | syncing
  | synced
  | failed
deriving DecidableEq, Repr

/-- A row of the sync_queue table. -/
structure SyncItem where
  id : String
  type : String
  payload : String
  createdAt : Nat
  status : SyncStatus
  retryCount : Nat
  lastError : Option String
deriving DecidableEq, Repr

/-- In-memory engine state: the sync_queue table plus the isSyncing latch. -/
structure EngineState where
  queue : List SyncItem
  isSyncing : Bool
deriving DecidableEq, Repr

/-- Result of NetInfo.fetch(). -/
structure NetState where
  isConnected : Bool
  isInternetReachable : Bool
deriving DecidableEq, Repr

/-- Oracle for the external world seen by one drain pass: delivery
outcome of sendToBackend per item id, the error message of a failed
HTTP delivery, and the NetInfo.isConnected answer of the k-th
connectivity query performed after a failure. -/
structure SyncEnv where
  sendOk : String → Bool
  sendErr : String → String
  netAfterFail : Nat → Bool

/-- A serialization pair standing for the runtime's JSON.stringify /
JSON.parse on payload records of type J. -/
structure Codec (J : Type) where
  stringify : J → String
  parse : String → Option J

def MAX_RETRIES : Nat := 5

/-- Static endpoint table of sendToBackend; an unmapped type throws. -/
def endpointFor (t : String) : Option String :=
  if t = "user_response" then some "/api/responses"
  else if t = "location_update" then some "/api/locations"
  else if t = "call_log" then some "/api/calls"
  else none

/-- sendToBackend resolves without throwing iff the type is mapped and
the POST succeeds (fetch resolves with response.ok). -/
def deliverOk (env : SyncEnv) (it : SyncItem) : Bool :=
  (endpointFor it.type).isSome && env.sendOk it.id

/-- The error message recorded on a failed delivery attempt. -/
def attemptError (env : SyncEnv) (it : SyncItem) : String :=
  if (endpointFor it.type).isSome then env.sendErr it.id
  else "Unknown sync type: " ++ it.type

/-- UPDATE sync_queue SET ... WHERE id = ?. -/
def updateWhere (i : String) (f : SyncItem → SyncItem) (q : List SyncItem) :
    List SyncItem :=
  q.map (fun r => if r.id = i then f r else r)

/-- UPDATE sync_queue SET status = 'syncing' WHERE id = ?. -/
def markSyncing (i : String) (q : List SyncItem) : List SyncItem :=
  updateWhere i (fun r => { r with status := SyncStatus.syncing }) q

/-- UPDATE sync_queue SET status = 'synced', last_error = NULL WHERE id = ?. -/
def markSynced (i : String) (q : List SyncItem) : List SyncItem :=
  updateWhere i
    (fun r => { r with status := SyncStatus.synced, lastError := none }) q

/-- UPDATE sync_queue SET status = 'failed', retry_count = retry_count + 1,
last_error = ? WHERE id = ?. -/
def markFailed (i : String) (err : String) (q : List SyncItem) :
    List SyncItem :=
  updateWhere i
    (fun r => { r with status := SyncStatus.failed,
                       retryCount := r.retryCount + 1,
                       lastError := some err }) q

/-- WHERE status IN ('pending', 'failed') AND retry_count < MAX_RETRIES. -/
def isCandidate (it : SyncItem) : Bool :=
  (decide (it.status = SyncStatus.pending) ||
   decide (it.status = SyncStatus.failed)) &&
  decide (it.retryCount < MAX_RETRIES)

/-- ORDER BY created_at ASC. -/
def createdLe (a b : SyncItem) : Prop := a.createdAt ≤ b.createdAt

/-- ORDER BY created_at DESC. -/
def createdGe (a b : SyncItem) : Prop := b.createdAt ≤ a.createdAt

instance : DecidableRel createdLe := fun a b =>
  inferInstanceAs (Decidable (a.createdAt ≤ b.createdAt))

instance : DecidableRel createdGe := fun a b =>
  inferInstanceAs (Decidable (b.createdAt ≤ a.createdAt))

instance : IsTotal SyncItem createdLe :=
  ⟨fun a b => Nat.le_total a.createdAt b.createdAt⟩

instance : IsTrans SyncItem createdLe :=
  ⟨fun _ _ _ h h2 => Nat.le_trans h h2⟩

instance : IsTotal SyncItem createdGe :=
  ⟨fun a b => Nat.le_total b.createdAt a.createdAt⟩

instance : IsTrans SyncItem createdGe :=
  ⟨fun _ _ _ h h2 => Nat.le_trans h2 h⟩

/-- The snapshot returned by the candidate SELECT of processSyncQueue:
pending/failed rows below the retry cap, in creation order. -/
def candidates (q : List SyncItem) : List SyncItem :=
  List.insertionSort createdLe (q.filter isCandidate)

/-- The per-item loop of processSyncQueue over the snapshot: mark
syncing, attempt delivery; on success mark synced and count it; on
failure mark failed with an incremented retry_count, then query
connectivity and break out of the loop when offline. -/
def runItems (env : SyncEnv) :
    List SyncItem → List SyncItem → Nat → Nat → List SyncItem × Nat
  | [], q, cnt, _ => (q, cnt)
  | it :: rest, q, cnt, k =>
    if deliverOk env it then
      runItems env rest (markSynced it.id (markSyncing it.id q)) (cnt + 1) k
    else
      if env.netAfterFail k then
        runItems env rest
          (markFailed it.id (attemptError env it) (markSyncing it.id q))
          cnt (k + 1)
      else (markFailed it.id (attemptError env it) (markSyncing it.id q), cnt)

/-- Ids of the 100 most recently created synced rows
(the subquery of the cleanup DELETE). -/
def keepSyncedIds (q : List SyncItem) : List String :=
  ((List.insertionSort createdGe
      (q.filter (fun r => decide (r.status = SyncStatus.synced)))).take 100).map
    (fun r => r.id)

/-- DELETE FROM sync_queue WHERE status = 'synced' AND id NOT IN
(100 most recently created synced ids). -/
def prune (q : List SyncItem) : List SyncItem :=
  q.filter (fun r =>
    !(decide (r.status = SyncStatus.synced)) ||
    decide (r.id ∈ keepSyncedIds q))

/-- The drain body: snapshot the candidates once, then run the loop. -/
def drainPass (env : SyncEnv) (q : List SyncItem) : List SyncItem × Nat :=
  runItems env (candidates q) q 0 0

/-- processSyncQueue: no-op returning 0 when the isSyncing latch is
held; otherwise drain the candidates, prune old synced rows, release
the latch and return the number of newly synced items. -/
def processSyncQueue (env : SyncEnv) (s : EngineState) : EngineState × Nat :=
  if s.isSyncing then (s, 0)
  else
    ({ queue := prune (drainPass env s.queue).1, isSyncing := false },
     (drainPass env s.queue).2)

/-- SELECT COUNT(*) FROM sync_queue WHERE status IN ('pending','failed'). -/
def getPendingCount (q : List SyncItem) : Nat :=
  (q.filter (fun r =>
    decide (r.status = SyncStatus.pending) ||
    decide (r.status = SyncStatus.failed))).length

/-- Number of rows with status synced. -/
def countSynced (q : List SyncItem) : Nat :=
  (q.filter (fun r => decide (r.status = SyncStatus.synced))).length

/-- The row inserted by enqueue for a fresh id and creation time:
status defaults to pending, retry_count to 0, last_error to NULL, and
the payload column holds the JSON-serialized record. -/
def mkQueueItem {J : Type} (c : Codec J) (i : String) (ty : String)
    (p : J) (now : Nat) : SyncItem :=
  { id := i, type := ty, payload := c.stringify p, createdAt := now,
    status := SyncStatus.pending, retryCount := 0, lastError := none }

/-- enqueue(type, payload): INSERT the pending row, then consult
NetInfo; when connected and reachable it fires a non-awaited drain.
Returns (state after the insert, returned id, whether a drain attempt
was triggered). The triggered drain itself is the separate
processSyncQueue transition. -/
def enqueue {J : Type} (c : Codec J) (net : NetState) (i : String)
    (now : Nat) (ty : String) (p : J) (s : EngineState) :
    EngineState × String × Bool :=
  ({ s with queue := s.queue ++ [mkQueueItem c i ty p now] }, i,
   net.isConnected && net.isInternetReachable)

/-- The request body the drain would deliver for a stored item:
JSON.parse of the payload column, re-serialized by JSON.stringify at
the fetch call; none when the stored payload does not parse. -/
def deliveredBody {J : Type} (c : Codec J) (it : SyncItem) : Option String :=
  (c.parse it.payload).map c.stringify

/-! ### Call lifecycle (CallService) -/

/-- Call status, per the call_logs CHECK constraint. -/
inductive CallStatus where
  | connecting
  | connected
  | disconnected
  | failed
deriving DecidableEq, Repr

/-- A row of the call_logs table; timestamps as ms since epoch. -/
structure CallLogRow where
  id : String
  alertId : Option String
  userId : String
  hotlineNumber : String
  startedAt : Nat
  endedAt : Option Nat
  durationSeconds : Option Nat
  recordingUrl : Option String
  status : CallStatus
  syncedAt : Option Nat
deriving DecidableEq, Repr

/-- Store-visible state of CallService: the call_logs table, the
sync_queue table it enqueues into, and the service's in-memory call
fields. -/
structure CallState where
  callLogs : List CallLogRow
  queue : List SyncItem
  activeCallId : Option String
  activeCallSid : Option String
  callStartTime : Option Nat
deriving DecidableEq, Repr

/-- Math.round((endMs - startMs) / 1000) for endMs at or after startMs. -/
def durationOf (startMs endMs : Nat) : Nat :=
  (endMs - startMs + 500) / 1000

/-- Stand-in for the JSON-serialized completion record
`{ callId, endedAt, durationSeconds }` that handleCallEnd enqueues. -/
def encodeCallLogPayload (callId : String) (endedAt : Nat)
    (dur : Option Nat) : String :=
  callId ++ "|" ++ toString endedAt ++ "|" ++
    (match dur with
     | none => "null"
     | some d => toString d)

/-- The prefix of makeHotlineCall before transport connect: record the
active call id and start time, INSERT the CallLog row with
status connecting (user id is left empty by the source). The sync
queue is untouched here. -/
def makeHotlineCallStart (callId : String) (alertId : Option String)
    (hotlineNumber : String) (now : Nat) (s : CallState) : CallState :=
  { s with
    activeCallId := some callId,
    callStartTime := some now,
    callLogs := s.callLogs ++
      [{ id := callId, alertId := alertId, userId := "",
         hotlineNumber := hotlineNumber, startedAt := now,
         endedAt := none, durationSeconds := none, recordingUrl := none,
         status := CallStatus.connecting, syncedAt := none }] }

/-- UPDATE call_logs SET status = ? WHERE id = ?. -/
def updateCallStatus (callId : String) (st : CallStatus) (s : CallState) :
    CallState :=
  { s with callLogs := s.callLogs.map (fun r =>
      if r.id = callId then { r with status := st } else r) }

/-- The connectFailure handler registered on the placed call: only a
status update to failed (plus a UI callback with no store effect). -/
def onConnectFailure (callId : String) (s : CallState) : CallState :=
  updateCallStatus callId CallStatus.failed s

/-- handleCallEnd: compute the duration from the remembered start time
(null when it was already cleared), UPDATE the row to disconnected
with ended_at and duration_seconds, enqueue a call_log sync item with
the completion record (qid is the fresh queue row id), and clear the
in-memory call fields. -/
def handleCallEnd (qid : String) (now : Nat) (callId : String)
    (s : CallState) : CallState :=
  let dur : Option Nat := s.callStartTime.map (fun t0 => durationOf t0 now)
  { callLogs := s.callLogs.map (fun r =>
      if r.id = callId then
        { r with status := CallStatus.disconnected, endedAt := some now,
                 durationSeconds := dur }
      else r),
    queue := s.queue ++
      [{ id := qid, type := "call_log",
         payload := encodeCallLogPayload callId now dur, createdAt := now,
         status := SyncStatus.pending, retryCount := 0, lastError := none }],
    activeCallId := none,
    activeCallSid := none,
    callStartTime := none }

/-- The disconnected handler registered on the placed call: it runs
handleCallEnd for the captured call id unconditionally (the status
callback to the UI has no store effect). -/
def onDisconnectedEvent (qid : String) (now : Nat) (callId : String)
    (s : CallState) : CallState :=
  handleCallEnd qid now callId s

/-! ### Response producer (ResponseService / LocationService) -/

/-- User response type, per the user_responses CHECK constraint. -/
inductive UserResponseType where
  | safe
  | need_assistance
  | evacuating
  | sheltering
deriving DecidableEq, Repr

/-- A position fix as returned by the platform location API.
Coordinates are opaque pass-through values, embedded as integers. -/
structure Fix where
  latitude : Int
  longitude : Int
  accuracy : Option Int
  altitude : Option Int
  timestamp : Nat
deriving DecidableEq, Repr

/-- The LocationSnapshot record built by captureLocation. -/
structure LocationSnapshot where
  latitude : Int
  longitude : Int
  accuracy : Int
  altitude : Option Int
  timestamp : Nat
deriving DecidableEq, Repr

/-- captureLocation: try the high-accuracy fix (high = none models the
bounded attempt throwing); on failure consult the last-known position
(none models the lookup throwing, some none models it returning null);
on total failure return null. A missing accuracy defaults to -1. -/
def captureLocation (high : Option Fix) (lastKnown : Option (Option Fix)) :
    Option LocationSnapshot :=
  match high with
  | some f =>
      some { latitude := f.latitude, longitude := f.longitude,
             accuracy := f.accuracy.getD (-1), altitude := f.altitude,
             timestamp := f.timestamp }
  | none =>
    match lastKnown with
    | some (some f) =>
        some { latitude := f.latitude, longitude := f.longitude,
               accuracy := f.accuracy.getD (-1), altitude := f.altitude,
               timestamp := f.timestamp }
    | _ => none

/-- A row of the user_responses table. -/
structure UserResponseRow where
  id : String
  alertId : String
  userId : String
  response : UserResponseType
  latitude : Option Int
  longitude : Option Int
  locationAccuracy : Option Int
  respondedAt : Nat
  syncedAt : Option Nat
deriving DecidableEq, Repr

/-- Store-visible state of ResponseService: the user_responses table
and the sync_queue table it enqueues into. -/
structure RespState where
  responses : List UserResponseRow
  queue : List SyncItem
deriving DecidableEq, Repr

/-- Stand-in for the JSON-serialized UserResponse record enqueued as a
user_response sync payload. -/
def encodeResponsePayload (r : UserResponseRow) : String :=
  r.id ++ "|" ++ r.alertId ++ "|" ++ r.userId

/-- submitResponse: capture a location (any capture failure yields
null coordinates), build the UserResponse, INSERT it into
user_responses, enqueue it as a user_response sync item, and return
it. respId and qid are the generated row ids, now the clock reading. -/
def submitResponse (high : Option Fix) (lastKnown : Option (Option Fix))
    (alertId userId : String) (rt : UserResponseType) (respId : String)
    (now : Nat) (qid : String) (s : RespState) :
    RespState × UserResponseRow :=
  let loc := captureLocation high lastKnown
  let response : UserResponseRow :=
    { id := respId, alertId := alertId, userId := userId, response := rt,
      latitude := loc.map (fun l => l.latitude),
      longitude := loc.map (fun l => l.longitude),
      locationAccuracy := loc.map (fun l => l.accuracy),
      respondedAt := now, syncedAt := none }
  ({ responses := s.responses ++ [response],
     queue := s.queue ++
       [{ id := qid, type := "user_response",
          payload := encodeResponsePayload response, createdAt := now,
          status := SyncStatus.pending, retryCount := 0,
          lastError := none }] },
   response)

/-! ### Concrete states and oracles used to exercise the model -/

/-- An oracle under which every delivery succeeds and the network
stays connected. -/
def okEnv : SyncEnv :=
  { sendOk := fun _ => true, sendErr := fun _ => "Sync failed: 500",
    netAfterFail := fun _ => true }

/-- An oracle under which every delivery fails and every connectivity
query after a failure reports offline. -/
def downEnv : SyncEnv :=
  { sendOk := fun _ => false, sendErr := fun _ => "Network request failed",
    netAfterFail := fun _ => false }

/-- A sample call_log queue row. -/
def sampleItem (i : String) (t : Nat) (st : SyncStatus) (rc : Nat) :
    SyncItem :=
  { id := i, type := "call_log", payload := "p", createdAt := t,
    status := st, retryCount := rc, lastError := none }

/-- The identity serialization on already-serialized string payloads. -/
def idCodec : Codec String :=
  { stringify := fun s => s, parse := fun s => some s }

/-- A queue of 101 fresh pending items. -/
def bigPendingQueue : List SyncItem :=
  (List.range 101).map (fun n => sampleItem (toString n) n SyncStatus.pending 0)

/-- The head of the candidate list in the C3 witness queue. -/
def c3Head : SyncItem := sampleItem "x" 1 SyncStatus.pending 0

/-- The remaining candidates of the C3 witness queue. -/
def c3Rest : List SyncItem :=
  [sampleItem "y" 2 SyncStatus.pending 0, sampleItem "z" 3 SyncStatus.pending 0]

/-- Engine state with three pending items created at t = 1 < 2 < 3. -/
def c3State : EngineState := EngineState.mk (c3Head :: c3Rest) false

/-- A CallState with one connected call c1 started at t = 1000 ms. -/
def c4State : CallState :=
  { callLogs := [{ id := "c1", alertId := none, userId := "",
                   hotlineNumber := "5551234", startedAt := 1000,
                   endedAt := none, durationSeconds := none,
                   recordingUrl := none, status := CallStatus.connected,
                   syncedAt := none }],
    queue := [],
    activeCallId := some "c1",
    activeCallSid := some "sid",
    callStartTime := some 1000 }

/-! ### Helper lemmas about the embedded operations -/

lemma mem_updateWhere_of_ne {i : String} {f : SyncItem → SyncItem}
    {q : List SyncItem} {r : SyncItem} (hr : r ∈ q) (hne : r.id ≠ i) :
    r ∈ updateWhere i f q := by
  unfold updateWhere
  exact List.mem_map.mpr ⟨r, hr, by simp [hne]⟩

lemma of_mem_updateWhere {i : String} {f : SyncItem → SyncItem}
    {q : List SyncItem} {r2 : SyncItem} (h : r2 ∈ updateWhere i f q)
    (hf : ∀ r, (f r).id = r.id) :
    ∃ r, r ∈ q ∧ r2.id = r.id ∧
      ((r2 = r ∧ r.id ≠ i) ∨ (r.id = i ∧ r2 = f r)) := by
  unfold updateWhere at h
  obtain ⟨r, hr, heq⟩ := List.mem_map.mp h
  by_cases hc : r.id = i
  · rw [if_pos hc] at heq
    exact ⟨r, hr, heq ▸ hf r, Or.inr ⟨hc, heq.symm⟩⟩
  · rw [if_neg hc] at heq
    exact ⟨r, hr, by rw [heq], Or.inl ⟨heq.symm, hc⟩⟩

lemma mem_of_mem_updateWhere_ne {i : String} {f : SyncItem → SyncItem}
    {q : List SyncItem} {r2 : SyncItem} (h : r2 ∈ updateWhere i f q)
    (hne : r2.id ≠ i) (hf : ∀ r, (f r).id = r.id) : r2 ∈ q := by
  obtain ⟨r, hr, hid, hcase⟩ := of_mem_updateWhere h hf
  rcases hcase with ⟨h1, _⟩ | ⟨h2, _⟩
  · exact h1 ▸ hr
  · exact absurd (hid.trans h2) hne

lemma updateWhere_map_id {i : String} {f : SyncItem → SyncItem}
    {q : List SyncItem} (hf : ∀ r, (f r).id = r.id) :
    (updateWhere i f q).map (fun r => r.id) = q.map (fun r => r.id) := by
  unfold updateWhere
  rw [List.map_map]
  refine List.map_congr_left (fun r _ => ?_)
  by_cases hc : r.id = i <;> simp [hc, hf]

lemma mem_markSyncing_of_ne {i : String} {q : List SyncItem} {r : SyncItem}
    (hr : r ∈ q) (hne : r.id ≠ i) : r ∈ markSyncing i q := by
  unfold markSyncing
  exact mem_updateWhere_of_ne hr hne

lemma mem_markSynced_of_ne {i : String} {q : List SyncItem} {r : SyncItem}
    (hr : r ∈ q) (hne : r.id ≠ i) : r ∈ markSynced i q := by
  unfold markSynced
  exact mem_updateWhere_of_ne hr hne

lemma mem_markFailed_of_ne {i err : String} {q : List SyncItem} {r : SyncItem}
    (hr : r ∈ q) (hne : r.id ≠ i) : r ∈ markFailed i err q := by
  unfold markFailed
  exact mem_updateWhere_of_ne hr hne

lemma mem_of_mem_markSyncing_ne {i : String} {q : List SyncItem}
    {r2 : SyncItem} (h : r2 ∈ markSyncing i q) (hne : r2.id ≠ i) : r2 ∈ q := by
  unfold markSyncing at h
  exact mem_of_mem_updateWhere_ne h hne (fun _ => rfl)

lemma mem_of_mem_markSynced_ne {i : String} {q : List SyncItem}
    {r2 : SyncItem} (h : r2 ∈ markSynced i q) (hne : r2.id ≠ i) : r2 ∈ q := by
  unfold markSynced at h
  exact mem_of_mem_updateWhere_ne h hne (fun _ => rfl)

lemma mem_of_mem_markFailed_ne {i err : String} {q : List SyncItem}
    {r2 : SyncItem} (h : r2 ∈ markFailed i err q) (hne : r2.id ≠ i) :
    r2 ∈ q := by
  unfold markFailed at h
  exact mem_of_mem_updateWhere_ne h hne (fun _ => rfl)

lemma markSyncing_map_id {i : String} {q : List SyncItem} :
    (markSyncing i q).map (fun r => r.id) = q.map (fun r => r.id) := by
  unfold markSyncing
  exact updateWhere_map_id (fun _ => rfl)

lemma markSynced_map_id {i : String} {q : List SyncItem} :
    (markSynced i q).map (fun r => r.id) = q.map (fun r => r.id) := by
  unfold markSynced
  exact updateWhere_map_id (fun _ => rfl)

lemma markFailed_map_id {i err : String} {q : List SyncItem} :
    (markFailed i err q).map (fun r => r.id) = q.map (fun r => r.id) := by
  unfold markFailed
  exact updateWhere_map_id (fun _ => rfl)

lemma runItems_untouched (env : SyncEnv) (snap : List SyncItem) :
    ∀ (q : List SyncItem) (cnt k : Nat) (r : SyncItem), r ∈ q →
      (∀ i ∈ snap, i.id ≠ r.id) → r ∈ (runItems env snap q cnt k).1 := by
  induction snap with
  | nil => intro q cnt k r hr _; simpa [runItems] using hr
  | cons it rest ih =>
    intro q cnt k r hr hids
    have hne : r.id ≠ it.id := fun h => hids it (by simp) h.symm
    have hrest : ∀ i ∈ rest, i.id ≠ r.id := fun i hi => hids i (by simp [hi])
    have h1 : r ∈ markSyncing it.id q := mem_markSyncing_of_ne hr hne
    rw [runItems]
    by_cases hdel : deliverOk env it
    · rw [if_pos hdel]
      exact ih _ _ _ r (mem_markSynced_of_ne h1 hne) hrest
    · rw [if_neg hdel]
      have h2 : r ∈ markFailed it.id (attemptError env it) (markSyncing it.id q) :=
        mem_markFailed_of_ne h1 hne
      by_cases hnet : env.netAfterFail k
      · rw [if_pos hnet]
        exact ih _ _ _ r h2 hrest
      · rw [if_neg hnet]
        exact h2

lemma runItems_mem (env : SyncEnv) (snap : List SyncItem) :
    ∀ (q : List SyncItem) (cnt k : Nat) (r2 : SyncItem),
      r2 ∈ (runItems env snap q cnt k).1 →
      r2 ∈ q ∨ ∃ i ∈ snap, r2.id = i.id := by
  induction snap with
  | nil => intro q cnt k r2 h; left; simpa [runItems] using h
  | cons it rest ih =>
    intro q cnt k r2 h
    rw [runItems] at h
    have step :
        ∀ q2 : List SyncItem,
          (∀ r3, r3 ∈ q2 → r3 ∈ q ∨ r3.id = it.id) →
          r2 ∈ q2 ∨ (∃ i ∈ rest, r2.id = i.id) →
          r2 ∈ q ∨ ∃ i ∈ it :: rest, r2.id = i.id := by
      intro q2 hq2 hcase
      rcases hcase with hin | ⟨i, hi, hid⟩
      · rcases hq2 r2 hin with h3 | h3
        · exact Or.inl h3
        · exact Or.inr ⟨it, by simp, h3⟩
      · exact Or.inr ⟨i, by simp [hi], hid⟩
    have hsynced : ∀ r3, r3 ∈ markSynced it.id (markSyncing it.id q) →
        r3 ∈ q ∨ r3.id = it.id := by
      intro r3 h3
      by_cases hc : r3.id = it.id
      · exact Or.inr hc
      · exact Or.inl
          (mem_of_mem_markSyncing_ne (mem_of_mem_markSynced_ne h3 hc) hc)
    have hfailed : ∀ r3,
        r3 ∈ markFailed it.id (attemptError env it) (markSyncing it.id q) →
        r3 ∈ q ∨ r3.id = it.id := by
      intro r3 h3
      by_cases hc : r3.id = it.id
      · exact Or.inr hc
      · exact Or.inl
          (mem_of_mem_markSyncing_ne (mem_of_mem_markFailed_ne h3 hc) hc)
    by_cases hdel : deliverOk env it
    · rw [if_pos hdel] at h
      exact step _ hsynced (ih _ _ _ r2 h)
    · rw [if_neg hdel] at h
      by_cases hnet : env.netAfterFail k
      · rw [if_pos hnet] at h
        exact step _ hfailed (ih _ _ _ r2 h)
      · rw [if_neg hnet] at h
        exact step _ hfailed (Or.inl h)

lemma runItems_map_id (env : SyncEnv) (snap : List SyncItem) :
    ∀ (q : List SyncItem) (cnt k : Nat),
      (runItems env snap q cnt k).1.map (fun r => r.id) =
        q.map (fun r => r.id) := by
  induction snap with
  | nil => intro q cnt k; simp [runItems]
  | cons it rest ih =>
    intro q cnt k
    rw [runItems]
    by_cases hdel : deliverOk env it
    · rw [if_pos hdel, ih, markSynced_map_id, markSyncing_map_id]
    · rw [if_neg hdel]
      by_cases hnet : env.netAfterFail k
      · rw [if_pos hnet, ih, markFailed_map_id, markSyncing_map_id]
      · rw [if_neg hnet]
        show (markFailed _ _ _).map _ = _
        rw [markFailed_map_id, markSyncing_map_id]

lemma candidates_subset {q : List SyncItem} {r : SyncItem}
    (h : r ∈ candidates q) : r ∈ q := by
  unfold candidates at h
  have h2 := (List.perm_insertionSort createdLe (q.filter isCandidate)).mem_iff.mp h
  exact (List.mem_filter.mp h2).1

lemma candidates_isCandidate {q : List SyncItem} {r : SyncItem}
    (h : r ∈ candidates q) : isCandidate r = true := by
  unfold candidates at h
  have h2 := (List.perm_insertionSort createdLe (q.filter isCandidate)).mem_iff.mp h
  exact (List.mem_filter.mp h2).2

lemma isCandidate_spec {r : SyncItem} (h : isCandidate r = true) :
    (r.status = SyncStatus.pending ∨ r.status = SyncStatus.failed) ∧
      r.retryCount < MAX_RETRIES := by
  unfold isCandidate at h
  simp only [Bool.and_eq_true, Bool.or_eq_true, decide_eq_true_eq] at h
  exact h

lemma mem_id_eq_of_nodup {q : List SyncItem}
    (hnd : (q.map (fun r => r.id)).Nodup) {a b : SyncItem}
    (ha : a ∈ q) (hb : b ∈ q) (hid : a.id = b.id) : a = b :=
  List.inj_on_of_nodup_map hnd ha hb hid

lemma candidates_map_id_nodup {q : List SyncItem}
    (hnd : (q.map (fun r => r.id)).Nodup) :
    ((candidates q).map (fun r => r.id)).Nodup := by
  unfold candidates
  have hsub : List.Sublist ((q.filter isCandidate).map (fun r => r.id))
      (q.map (fun r => r.id)) := (List.filter_sublist q).map _
  have hnd2 : ((q.filter isCandidate).map (fun r => r.id)).Nodup :=
    hnd.sublist hsub
  have hperm : List.Perm
      ((List.insertionSort createdLe (q.filter isCandidate)).map
        (fun r => r.id))
      ((q.filter isCandidate).map (fun r => r.id)) :=
    (List.perm_insertionSort createdLe _).map _
  exact hperm.nodup_iff.mpr hnd2

lemma prune_subset {q : List SyncItem} {r : SyncItem}
    (h : r ∈ prune q) : r ∈ q := by
  unfold prune at h
  exact (List.mem_filter.mp h).1

lemma mem_prune_of_not_synced {q : List SyncItem} {r : SyncItem}
    (hr : r ∈ q) (hs : ¬ r.status = SyncStatus.synced) : r ∈ prune q := by
  unfold prune
  exact List.mem_filter.mpr ⟨hr, by simp [hs]⟩

lemma syncedStep_eq (i : String) (q : List SyncItem) :
    markSynced i (markSyncing i q) =
      updateWhere i
        (fun r => { r with status := SyncStatus.synced,
                           lastError := none }) q := by
  unfold markSynced markSyncing updateWhere
  rw [List.map_map]
  refine List.map_congr_left (fun r _ => ?_)
  by_cases hc : r.id = i <;> simp [hc]

lemma failedStep_eq (i err : String) (q : List SyncItem) :
    markFailed i err (markSyncing i q) =
      updateWhere i
        (fun r => { r with status := SyncStatus.failed,
                           retryCount := r.retryCount + 1,
                           lastError := some err }) q := by
  unfold markFailed markSyncing updateWhere
  rw [List.map_map]
  refine List.map_congr_left (fun r _ => ?_)
  by_cases hc : r.id = i <;> simp [hc]

lemma hsnapq_step {it : SyncItem} {rest : List SyncItem} {q : List SyncItem}
    {f : SyncItem → SyncItem} (hf : ∀ r, (f r).id = r.id)
    (hsnapq : ∀ i ∈ it :: rest, ∀ r ∈ q, r.id = i.id → r = i)
    (hitid : it.id ∉ rest.map (fun i => i.id)) :
    ∀ i ∈ rest, ∀ r2 ∈ updateWhere it.id f q, r2.id = i.id → r2 = i := by
  intro i hi r2 h2 hid
  obtain ⟨r, hr, hid2, hcase⟩ := of_mem_updateWhere h2 hf
  rcases hcase with ⟨heq, _⟩ | ⟨hri, _⟩
  · exact hsnapq i (List.mem_cons_of_mem _ hi) r2 (heq ▸ hr) hid
  · exfalso
    apply hitid
    have hii : it.id = i.id := by rw [← hri, ← hid2]; exact hid
    rw [hii]
    exact List.mem_map.mpr ⟨i, hi, rfl⟩

/-- Through the drain loop, every resulting row traces back by id to a
row of the original table, with retry_count either unchanged or
incremented by exactly one together with a transition to failed, the
increment happening only on rows that were strictly below the cap. -/
lemma runItems_track (env : SyncEnv) (q0 : List SyncItem)
    (snap : List SyncItem) :
    ∀ (q : List SyncItem) (cnt k : Nat),
      (snap.map (fun i => i.id)).Nodup →
      (∀ i ∈ snap, i ∈ q0) →
      (∀ i ∈ snap, i.retryCount < MAX_RETRIES) →
      (∀ i ∈ snap, ∀ r ∈ q, r.id = i.id → r = i) →
      (∀ r ∈ q, ∃ r0, r0 ∈ q0 ∧ r.id = r0.id ∧
        (r.retryCount = r0.retryCount ∨
         (r0.retryCount < MAX_RETRIES ∧
          r.retryCount = r0.retryCount + 1 ∧
          r.status = SyncStatus.failed))) →
      ∀ r2 ∈ (runItems env snap q cnt k).1, ∃ r0, r0 ∈ q0 ∧
        r2.id = r0.id ∧
        (r2.retryCount = r0.retryCount ∨
         (r0.retryCount < MAX_RETRIES ∧
          r2.retryCount = r0.retryCount + 1 ∧
          r2.status = SyncStatus.failed)) := by
  induction snap with
  | nil =>
    intro q cnt k _ _ _ _ htrack r2 h2
    rw [runItems] at h2
    exact htrack r2 h2
  | cons it rest ih =>
    intro q cnt k hnd hsnap0 hlt hsnapq htrack
    simp only [List.map_cons, List.nodup_cons] at hnd
    obtain ⟨hitid, hndr⟩ := hnd
    have hsnap0r : ∀ i ∈ rest, i ∈ q0 :=
      fun i hi => hsnap0 i (List.mem_cons_of_mem _ hi)
    have hltr : ∀ i ∈ rest, i.retryCount < MAX_RETRIES :=
      fun i hi => hlt i (List.mem_cons_of_mem _ hi)
    rw [runItems]
    by_cases hdel : deliverOk env it
    · rw [if_pos hdel, syncedStep_eq]
      refine ih _ _ _ hndr hsnap0r hltr
        (hsnapq_step (fun _ => rfl) hsnapq hitid) ?_
      intro r2 h2
      obtain ⟨r, hr, hid2, hcase⟩ := of_mem_updateWhere h2 (fun _ => rfl)
      rcases hcase with ⟨heq, _⟩ | ⟨hri, heq⟩
      · exact heq ▸ htrack r hr
      · have hre : r = it := hsnapq it (by simp) r hr hri
        refine ⟨it, hsnap0 it (by simp), ?_, Or.inl ?_⟩
        · rw [heq, hre]
        · rw [heq, hre]
    · rw [if_neg hdel, failedStep_eq]
      have htrack2 : ∀ r2 ∈ updateWhere it.id
          (fun r => { r with status := SyncStatus.failed,
                             retryCount := r.retryCount + 1,
                             lastError := some (attemptError env it) }) q,
          ∃ r0, r0 ∈ q0 ∧ r2.id = r0.id ∧
            (r2.retryCount = r0.retryCount ∨
             (r0.retryCount < MAX_RETRIES ∧
              r2.retryCount = r0.retryCount + 1 ∧
              r2.status = SyncStatus.failed)) := by
        intro r2 h2
        obtain ⟨r, hr, hid2, hcase⟩ := of_mem_updateWhere h2 (fun _ => rfl)
        rcases hcase with ⟨heq, _⟩ | ⟨hri, heq⟩
        · exact heq ▸ htrack r hr
        · have hre : r = it := hsnapq it (by simp) r hr hri
          refine ⟨it, hsnap0 it (by simp), ?_,
            Or.inr ⟨hlt it (by simp), ?_, ?_⟩⟩
          · rw [heq, hre]
          · rw [heq, hre]
          · rw [heq]
      by_cases hnet : env.netAfterFail k
      · rw [if_pos hnet]
        exact ih _ _ _ hndr hsnap0r hltr
          (hsnapq_step (fun _ => rfl) hsnapq hitid) htrack2
      · rw [if_neg hnet]
        exact htrack2

/-! ### Claim theorems -/

/-- C2: when a drain pass is already in flight (the isSyncing latch is
held), a concurrent processSyncQueue call returns 0 immediately and
performs no store mutation at all — the state, hence the status,
retryCount and lastError of every item, is returned unchanged. -/
theorem c2_concurrent_drain_noop (env : SyncEnv) (s : EngineState)
    (h : s.isSyncing = true) : processSyncQueue env s = (s, 0) := by
  simp [processSyncQueue, h]

theorem c2_witness :
    (EngineState.mk [sampleItem "a" 1 SyncStatus.pending 0] true).isSyncing
        = true ∧
    processSyncQueue okEnv
        (EngineState.mk [sampleItem "a" 1 SyncStatus.pending 0] true) =
      (EngineState.mk [sampleItem "a" 1 SyncStatus.pending 0] true, 0) :=
  ⟨rfl, c2_concurrent_drain_noop okEnv
    (EngineState.mk [sampleItem "a" 1 SyncStatus.pending 0] true) rfl⟩

/-- C8: enqueue appends exactly one new row with status pending,
retry_count 0 and no error, whose payload column is the serialized
record, and returns the generated id; the inserted row and the
returned id do not depend on the connectivity answer, and a drain
attempt is triggered (without being awaited) precisely when NetInfo
reports connected and reachable. -/
theorem c8_enqueue_contract {J : Type} (c : Codec J) (net : NetState)
    (i : String) (now : Nat) (ty : String) (p : J) (s : EngineState) :
    (enqueue c net i now ty p s).1.queue =
      s.queue ++
        [SyncItem.mk i ty (c.stringify p) now SyncStatus.pending 0 none] ∧
    (enqueue c net i now ty p s).2.1 = i ∧
    (∀ net2 : NetState,
      (enqueue c net2 i now ty p s).1 = (enqueue c net i now ty p s).1 ∧
      (enqueue c net2 i now ty p s).2.1 = (enqueue c net i now ty p s).2.1) ∧
    (enqueue c net i now ty p s).2.2 =
      (net.isConnected && net.isInternetReachable) :=
  ⟨rfl, rfl, fun _ => ⟨rfl, rfl⟩, rfl⟩

/-- C10: the payload column stored by enqueue is the serialization of
the record passed in, and the request body the drain delivers for that
row (parse the stored column, re-serialize at the send) equals that
same serialization, provided parsing is left inverse to serialization
as it is for the runtime's JSON pair on JSON-representable records. -/
theorem c10_payload_roundtrip {J : Type} (c : Codec J)
    (hrt : ∀ j : J, c.parse (c.stringify j) = some j) (net : NetState)
    (i : String) (now : Nat) (ty : String) (p : J) (s : EngineState) :
    ∃ it : SyncItem,
      (enqueue c net i now ty p s).1.queue.getLast? = some it ∧
      it.payload = c.stringify p ∧
      deliveredBody c it = some (c.stringify p) := by
  refine ⟨mkQueueItem c i ty p now, ?_, rfl, ?_⟩
  · show (s.queue ++ [mkQueueItem c i ty p now]).getLast? = _
    rw [List.getLast?_concat]
  · simp [deliveredBody, mkQueueItem, hrt]

theorem c10_witness :
    (∀ j : String, idCodec.parse (idCodec.stringify j) = some j) ∧
    ∃ it : SyncItem,
      (enqueue idCodec (NetState.mk true true) "q1" 5 "user_response"
          "hello" (EngineState.mk [] false)).1.queue.getLast? = some it ∧
      it.payload = idCodec.stringify "hello" ∧
      deliveredBody idCodec it = some (idCodec.stringify "hello") :=
  ⟨fun _ => rfl,
   c10_payload_roundtrip idCodec (fun _ => rfl) (NetState.mk true true)
     "q1" 5 "user_response" "hello" (EngineState.mk [] false)⟩

/-- C5: after placeCall persists the connecting row and the voice
backend reports connect failure, the handler only updates that call's
row to status failed: the sync queue is exactly as before the call,
every row bearing the call id has status failed, and every other row
is untouched. -/
theorem c5_connect_failure_no_sync_item (s : CallState) (callId : String)
    (alertId : Option String) (num : String) (now : Nat) :
    (onConnectFailure callId
        (makeHotlineCallStart callId alertId num now s)).queue = s.queue ∧
    (∃ r, r ∈ (onConnectFailure callId
        (makeHotlineCallStart callId alertId num now s)).callLogs ∧
      r.id = callId ∧ r.status = CallStatus.failed) ∧
    (∀ r ∈ (onConnectFailure callId
        (makeHotlineCallStart callId alertId num now s)).callLogs,
      r.id = callId → r.status = CallStatus.failed) ∧
    (∀ r ∈ (onConnectFailure callId
        (makeHotlineCallStart callId alertId num now s)).callLogs,
      r.id ≠ callId → r ∈ s.callLogs) := by
  unfold onConnectFailure updateCallStatus makeHotlineCallStart
  refine ⟨rfl, ?_, ?_, ?_⟩
  · refine ⟨CallLogRow.mk callId alertId "" num now none none none
      CallStatus.failed none, ?_, rfl, rfl⟩
    refine List.mem_map.mpr ⟨CallLogRow.mk callId alertId "" num now none
      none none CallStatus.connecting none, ?_, by simp⟩
    exact List.mem_append.mpr (Or.inr (by simp))
  · intro r hr hid
    obtain ⟨r0, _, heq⟩ := List.mem_map.mp hr
    by_cases hc : r0.id = callId
    · rw [if_pos hc] at heq
      rw [← heq]
    · rw [if_neg hc] at heq
      exact absurd (heq ▸ hid) hc
  · intro r hr hid
    obtain ⟨r0, hr0, heq⟩ := List.mem_map.mp hr
    by_cases hc : r0.id = callId
    · rw [if_pos hc] at heq
      exact absurd (heq ▸ hc) hid
    · rw [if_neg hc] at heq
      rcases List.mem_append.mp hr0 with h1 | h1
      · exact heq ▸ h1
      · simp at h1
        rw [h1] at hc
        exact absurd rfl hc

/-- C6: when both the high-accuracy capture and the last-known lookup
fail, submitResponse still returns the built UserResponse, persists it
with null latitude and longitude, and appends one pending
user_response sync item — capture failure never blocks submission. -/
theorem c6_location_failure_still_submits (high : Option Fix)
    (lastKnown : Option (Option Fix)) (alertId userId : String)
    (rt : UserResponseType) (respId : String) (now : Nat) (qid : String)
    (s : RespState) (hhigh : high = none)
    (hlast : lastKnown = none ∨ lastKnown = some none) :
    (submitResponse high lastKnown alertId userId rt respId now qid
        s).2.latitude = none ∧
    (submitResponse high lastKnown alertId userId rt respId now qid
        s).2.longitude = none ∧
    (submitResponse high lastKnown alertId userId rt respId now qid
        s).2.id = respId ∧
    (submitResponse high lastKnown alertId userId rt respId now qid
        s).2.alertId = alertId ∧
    (submitResponse high lastKnown alertId userId rt respId now qid
        s).2.response = rt ∧
    (submitResponse high lastKnown alertId userId rt respId now qid
        s).1.responses = s.responses ++
      [(submitResponse high lastKnown alertId userId rt respId now qid
          s).2] ∧
    (submitResponse high lastKnown alertId userId rt respId now qid
        s).1.queue = s.queue ++
      [SyncItem.mk qid "user_response"
        (encodeResponsePayload
          (submitResponse high lastKnown alertId userId rt respId now qid
            s).2)
        now SyncStatus.pending 0 none] := by
  subst hhigh
  rcases hlast with h | h <;> subst h <;>
    refine ⟨rfl, rfl, rfl, rfl, rfl, rfl, rfl⟩

theorem c6_witness :
    ((none : Option Fix) = none) ∧
    ((some none : Option (Option Fix)) = none ∨
      (some none : Option (Option Fix)) = some none) ∧
    ((submitResponse none (some none) "A1" "u1" UserResponseType.safe
        "r1" 42 "q1" (RespState.mk [] [])).2.latitude = none ∧
     (submitResponse none (some none) "A1" "u1" UserResponseType.safe
        "r1" 42 "q1" (RespState.mk [] [])).2.longitude = none ∧
     (submitResponse none (some none) "A1" "u1" UserResponseType.safe
        "r1" 42 "q1" (RespState.mk [] [])).2.id = "r1" ∧
     (submitResponse none (some none) "A1" "u1" UserResponseType.safe
        "r1" 42 "q1" (RespState.mk [] [])).2.alertId = "A1" ∧
     (submitResponse none (some none) "A1" "u1" UserResponseType.safe
        "r1" 42 "q1" (RespState.mk [] [])).2.response =
       UserResponseType.safe ∧
     (submitResponse none (some none) "A1" "u1" UserResponseType.safe
        "r1" 42 "q1" (RespState.mk [] [])).1.responses =
       [] ++ [(submitResponse none (some none) "A1" "u1"
           UserResponseType.safe "r1" 42 "q1" (RespState.mk [] [])).2] ∧
     (submitResponse none (some none) "A1" "u1" UserResponseType.safe
        "r1" 42 "q1" (RespState.mk [] [])).1.queue =
       [] ++
         [SyncItem.mk "q1" "user_response"
           (encodeResponsePayload
             (submitResponse none (some none) "A1" "u1"
               UserResponseType.safe "r1" 42 "q1" (RespState.mk [] [])).2)
           42 SyncStatus.pending 0 none]) :=
  ⟨rfl, Or.inr rfl,
   c6_location_failure_still_submits none (some none) "A1" "u1"
     UserResponseType.safe "r1" 42 "q1" (RespState.mk [] []) rfl
     (Or.inr rfl)⟩

/-- C4 counterexample: delivering a second "disconnected" event for a
call whose row is already disconnected is not a no-op — handleCallEnd
runs again, enqueuing a second call_log item and rewriting the row
(ended_at moves to the later time, duration_seconds becomes null
because callStartTime was already cleared). -/
theorem c4_redundant_disconnect_not_noop :
    (onDisconnectedEvent "q2" 75000 "c1"
        (onDisconnectedEvent "q1" 61000 "c1" c4State)).queue.length =
      (onDisconnectedEvent "q1" 61000 "c1" c4State).queue.length + 1 ∧
    (onDisconnectedEvent "q2" 75000 "c1"
        (onDisconnectedEvent "q1" 61000 "c1" c4State)).callLogs ≠
      (onDisconnectedEvent "q1" 61000 "c1" c4State).callLogs := by
  refine ⟨rfl, by decide⟩

/-- C1: a drain pass preserves the invariant retryCount ≤ MAX_RETRIES;
the candidate SELECT only admits pending/failed rows strictly below
the cap, so an exhausted row is never in any candidate set; an
exhausted failed row survives a pass untouched; and any retry_count
change across a pass is an increment by exactly 1 on a row that was
below the cap, tied to a failed delivery. -/
theorem c1_retry_bound_and_exhaustion (env : SyncEnv) (s : EngineState)
    (hnd : (s.queue.map (fun r => r.id)).Nodup)
    (hb : ∀ r ∈ s.queue, r.retryCount ≤ MAX_RETRIES) :
    (∀ r ∈ (processSyncQueue env s).1.queue, r.retryCount ≤ MAX_RETRIES) ∧
    (∀ (q : List SyncItem) (r : SyncItem), r ∈ candidates q →
      (r.status = SyncStatus.pending ∨ r.status = SyncStatus.failed) ∧
      r.retryCount < MAX_RETRIES) ∧
    (∀ r ∈ s.queue, r.retryCount = MAX_RETRIES →
      r.status = SyncStatus.failed → r ∈ (processSyncQueue env s).1.queue) ∧
    (∀ r2 ∈ (processSyncQueue env s).1.queue, ∃ r0, r0 ∈ s.queue ∧
      r2.id = r0.id ∧
      (r2.retryCount = r0.retryCount ∨
       (r0.retryCount < MAX_RETRIES ∧ r2.retryCount = r0.retryCount + 1 ∧
        r2.status = SyncStatus.failed))) := by
  have hcand : ∀ (q : List SyncItem) (r : SyncItem), r ∈ candidates q →
      (r.status = SyncStatus.pending ∨ r.status = SyncStatus.failed) ∧
      r.retryCount < MAX_RETRIES :=
    fun q r hr => isCandidate_spec (candidates_isCandidate hr)
  by_cases hsync : s.isSyncing = true
  · refine ⟨?_, hcand, ?_, ?_⟩
    · intro r hr
      rw [processSyncQueue, if_pos hsync] at hr
      exact hb r hr
    · intro r hr _ _
      rw [processSyncQueue, if_pos hsync]
      exact hr
    · intro r2 h2
      rw [processSyncQueue, if_pos hsync] at h2
      exact ⟨r2, h2, rfl, Or.inl rfl⟩
  · have hqueue : (processSyncQueue env s).1.queue =
        prune (runItems env (candidates s.queue) s.queue 0 0).1 := by
      rw [processSyncQueue, if_neg hsync]
      rfl
    have htrack := runItems_track env s.queue (candidates s.queue)
      s.queue 0 0 (candidates_map_id_nodup hnd)
      (fun i hi => candidates_subset hi)
      (fun i hi => (isCandidate_spec (candidates_isCandidate hi)).2)
      (fun i hi r hr hid =>
        mem_id_eq_of_nodup hnd hr (candidates_subset hi) hid)
      (fun r hr => ⟨r, hr, rfl, Or.inl rfl⟩)
    refine ⟨?_, hcand, ?_, ?_⟩
    · intro r hr
      rw [hqueue] at hr
      obtain ⟨r0, hr0, _, hcase⟩ := htrack r (prune_subset hr)
      rcases hcase with heq | ⟨hlt0, heq, _⟩
      · rw [heq]; exact hb r0 hr0
      · rw [heq]; exact Nat.succ_le_of_lt hlt0
    · intro r hr hmax hfail
      have hnotin : ∀ i ∈ candidates s.queue, i.id ≠ r.id := by
        intro i hi hid
        have hir : i = r :=
          mem_id_eq_of_nodup hnd (candidates_subset hi) hr hid
        have hlt := (isCandidate_spec (candidates_isCandidate hi)).2
        rw [hir, hmax] at hlt
        exact absurd hlt (Nat.lt_irrefl MAX_RETRIES)
      rw [hqueue]
      refine mem_prune_of_not_synced
        (runItems_untouched env (candidates s.queue) s.queue 0 0 r hr
          hnotin) ?_
      rw [hfail]
      intro hcontra
      cases hcontra
    · intro r2 h2
      rw [hqueue] at h2
      exact htrack r2 (prune_subset h2)

theorem c1_witness :
    ((EngineState.mk [sampleItem "a" 1 SyncStatus.pending 0,
        sampleItem "b" 2 SyncStatus.failed 5] false).queue.map
          (fun r => r.id)).Nodup ∧
    (∀ r ∈ (EngineState.mk [sampleItem "a" 1 SyncStatus.pending 0,
        sampleItem "b" 2 SyncStatus.failed 5] false).queue,
      r.retryCount ≤ MAX_RETRIES) ∧
    ((∀ r ∈ (processSyncQueue okEnv
        (EngineState.mk [sampleItem "a" 1 SyncStatus.pending 0,
          sampleItem "b" 2 SyncStatus.failed 5] false)).1.queue,
        r.retryCount ≤ MAX_RETRIES) ∧
     (∀ (q : List SyncItem) (r : SyncItem), r ∈ candidates q →
        (r.status = SyncStatus.pending ∨ r.status = SyncStatus.failed) ∧
        r.retryCount < MAX_RETRIES) ∧
     (∀ r ∈ (EngineState.mk [sampleItem "a" 1 SyncStatus.pending 0,
          sampleItem "b" 2 SyncStatus.failed 5] false).queue,
        r.retryCount = MAX_RETRIES → r.status = SyncStatus.failed →
        r ∈ (processSyncQueue okEnv
          (EngineState.mk [sampleItem "a" 1 SyncStatus.pending 0,
            sampleItem "b" 2 SyncStatus.failed 5] false)).1.queue) ∧
     (∀ r2 ∈ (processSyncQueue okEnv
          (EngineState.mk [sampleItem "a" 1 SyncStatus.pending 0,
            sampleItem "b" 2 SyncStatus.failed 5] false)).1.queue,
        ∃ r0, r0 ∈ (EngineState.mk [sampleItem "a" 1 SyncStatus.pending 0,
            sampleItem "b" 2 SyncStatus.failed 5] false).queue ∧
          r2.id = r0.id ∧
          (r2.retryCount = r0.retryCount ∨
           (r0.retryCount < MAX_RETRIES ∧
            r2.retryCount = r0.retryCount + 1 ∧
            r2.status = SyncStatus.failed)))) :=
  ⟨by decide, by decide,
   c1_retry_bound_and_exhaustion okEnv
     (EngineState.mk [sampleItem "a" 1 SyncStatus.pending 0,
       sampleItem "b" 2 SyncStatus.failed 5] false)
     (by decide) (by decide)⟩

/-- C3: within one drain pass items are attempted in creation-time
ascending order (the candidate snapshot is sorted by created_at); and
when delivery of the first candidate fails and the connectivity query
after that failure reports offline, the pass returns 0 and every other
row is left exactly as it was — in particular the later-created
candidates are never transitioned to syncing or delivered. -/
theorem c3_fail_fast_ordering (env : SyncEnv) (s : EngineState)
    (a : SyncItem) (rest : List SyncItem)
    (hsyncing : s.isSyncing = false)
    (hcand : candidates s.queue = a :: rest)
    (hfail : deliverOk env a = false)
    (hnet : env.netAfterFail 0 = false) :
    (∀ q : List SyncItem, List.Sorted createdLe (candidates q)) ∧
    (processSyncQueue env s).2 = 0 ∧
    (∀ r ∈ s.queue, r.id ≠ a.id → ¬ r.status = SyncStatus.synced →
      r ∈ (processSyncQueue env s).1.queue) ∧
    (∀ r ∈ (processSyncQueue env s).1.queue, r.id ≠ a.id →
      r ∈ s.queue) := by
  have hns : ¬ (s.isSyncing = true) := by
    rw [hsyncing]; exact Bool.false_ne_true
  have hdel : ¬ (deliverOk env a = true) := by
    rw [hfail]; exact Bool.false_ne_true
  have hnet2 : ¬ (env.netAfterFail 0 = true) := by
    rw [hnet]; exact Bool.false_ne_true
  have hrun : runItems env (candidates s.queue) s.queue 0 0 =
      (markFailed a.id (attemptError env a) (markSyncing a.id s.queue), 0) := by
    rw [hcand, runItems, if_neg hdel, if_neg hnet2]
  have hqueue : (processSyncQueue env s).1.queue =
      prune (markFailed a.id (attemptError env a)
        (markSyncing a.id s.queue)) := by
    rw [processSyncQueue, if_neg hns]
    show prune (runItems env (candidates s.queue) s.queue 0 0).1 = _
    rw [hrun]
  have hcount : (processSyncQueue env s).2 = 0 := by
    rw [processSyncQueue, if_neg hns]
    show (runItems env (candidates s.queue) s.queue 0 0).2 = 0
    rw [hrun]
  refine ⟨fun q => List.sorted_insertionSort createdLe _, hcount, ?_, ?_⟩
  · intro r hr hne hnotsynced
    rw [hqueue]
    exact mem_prune_of_not_synced
      (mem_markFailed_of_ne (mem_markSyncing_of_ne hr hne) hne) hnotsynced
  · intro r hr hne
    rw [hqueue] at hr
    exact mem_of_mem_markSyncing_ne
      (mem_of_mem_markFailed_ne (prune_subset hr) hne) hne

theorem c3_witness :
    c3State.isSyncing = false ∧
    candidates c3State.queue = c3Head :: c3Rest ∧
    deliverOk downEnv c3Head = false ∧
    downEnv.netAfterFail 0 = false ∧
    ((∀ q : List SyncItem, List.Sorted createdLe (candidates q)) ∧
     (processSyncQueue downEnv c3State).2 = 0 ∧
     (∀ r ∈ c3State.queue, r.id ≠ c3Head.id →
        ¬ r.status = SyncStatus.synced →
        r ∈ (processSyncQueue downEnv c3State).1.queue) ∧
     (∀ r ∈ (processSyncQueue downEnv c3State).1.queue,
        r.id ≠ c3Head.id → r ∈ c3State.queue)) :=
  ⟨rfl, by decide, by decide, rfl,
   c3_fail_fast_ordering downEnv c3State c3Head c3Rest rfl (by decide)
     (by decide) rfl⟩

lemma keep_of_mem_prune {q : List SyncItem} {r : SyncItem}
    (h : r ∈ prune q) (hs : r.status = SyncStatus.synced) :
    r.id ∈ keepSyncedIds q := by
  unfold prune at h
  have h2 := (List.mem_filter.mp h).2
  rw [hs] at h2
  simpa using h2

lemma mem_prune_of_kept {q : List SyncItem} {r : SyncItem} (hr : r ∈ q)
    (hk : r.id ∈ keepSyncedIds q) : r ∈ prune q := by
  unfold prune
  refine List.mem_filter.mpr ⟨hr, ?_⟩
  simp [hk]

/-- After pruning, at most 100 synced rows remain. -/
lemma countSynced_prune_le (q : List SyncItem)
    (hnd : (q.map (fun r => r.id)).Nodup) : countSynced (prune q) ≤ 100 := by
  unfold countSynced
  have hsubL : List.Sublist
      ((prune q).filter (fun r => decide (r.status = SyncStatus.synced)))
      (prune q) := List.filter_sublist _
  have hsubP : List.Sublist (prune q) q := by
    unfold prune
    exact List.filter_sublist _
  have hndL : (((prune q).filter
      (fun r => decide (r.status = SyncStatus.synced))).map
        (fun r => r.id)).Nodup :=
    hnd.sublist ((hsubL.trans hsubP).map _)
  have hsubset : ∀ x ∈ ((prune q).filter
      (fun r => decide (r.status = SyncStatus.synced))).map (fun r => r.id),
      x ∈ keepSyncedIds q := by
    intro x hx
    obtain ⟨r, hrL, hrx⟩ := List.mem_map.mp hx
    have h1 := List.mem_filter.mp hrL
    have hsynced : r.status = SyncStatus.synced := by
      have h3 := h1.2
      simpa using h3
    exact hrx ▸ keep_of_mem_prune h1.1 hsynced
  have hsp := (List.subperm_of_subset hndL hsubset).length_le
  rw [List.length_map] at hsp
  refine le_trans hsp ?_
  unfold keepSyncedIds
  rw [List.length_map]
  exact List.length_take_le _ _

/-- Membership in the pruned table, characterized: a row survives iff
it is not synced, or it is among the 100 most recently created synced
rows. -/
lemma mem_prune_iff {q : List SyncItem}
    (hnd : (q.map (fun r => r.id)).Nodup) {r : SyncItem} (hr : r ∈ q) :
    r ∈ prune q ↔ (¬ r.status = SyncStatus.synced ∨
      r ∈ (List.insertionSort createdGe
        (q.filter (fun x =>
          decide (x.status = SyncStatus.synced)))).take 100) := by
  constructor
  · intro h
    by_cases hs : r.status = SyncStatus.synced
    · right
      have hk := keep_of_mem_prune h hs
      obtain ⟨j, hj, hjid⟩ := List.mem_map.mp hk
      have hjq : j ∈ q := by
        have h4 := (List.perm_insertionSort createdGe
          (q.filter (fun x =>
            decide (x.status = SyncStatus.synced)))).mem_iff.mp
          (List.mem_of_mem_take hj)
        exact (List.mem_filter.mp h4).1
      have : j = r := mem_id_eq_of_nodup hnd hjq hr hjid
      exact this ▸ hj
    · exact Or.inl hs
  · intro h
    rcases h with hs | htake
    · exact mem_prune_of_not_synced hr hs
    · refine mem_prune_of_kept hr ?_
      exact List.mem_map.mpr ⟨r, htake, rfl⟩

/-- C7: after any completed drain pass the number of synced rows is at
most 100; pruning never deletes a pending or failed row; among rows
with distinct ids the survivors of a prune are exactly the non-synced
rows plus the 100 most recently created synced rows; and a completed
pass ends by pruning the drained table. -/
theorem c7_prune_keeps_last_100 (env : SyncEnv) (s : EngineState)
    (hsyncing : s.isSyncing = false)
    (hnd : (s.queue.map (fun r => r.id)).Nodup) :
    countSynced (processSyncQueue env s).1.queue ≤ 100 ∧
    (∀ (q : List SyncItem), ∀ r ∈ q, ¬ r.status = SyncStatus.synced →
      r ∈ prune q) ∧
    (∀ (q : List SyncItem), (q.map (fun r => r.id)).Nodup →
      ∀ r ∈ q, (r ∈ prune q ↔ (¬ r.status = SyncStatus.synced ∨
        r ∈ (List.insertionSort createdGe
          (q.filter (fun x =>
            decide (x.status = SyncStatus.synced)))).take 100))) ∧
    (processSyncQueue env s).1.queue = prune (drainPass env s.queue).1 := by
  have hq : (processSyncQueue env s).1.queue =
      prune (drainPass env s.queue).1 := by
    rw [processSyncQueue, if_neg (by rw [hsyncing]; exact Bool.false_ne_true)]
  refine ⟨?_, fun q r hr hs => mem_prune_of_not_synced hr hs,
    fun q hndq r hr => mem_prune_iff hndq hr, hq⟩
  rw [hq]
  refine countSynced_prune_le _ ?_
  show ((runItems env (candidates s.queue) s.queue 0 0).1.map
    (fun r => r.id)).Nodup
  rw [runItems_map_id]
  exact hnd

theorem c7_witness :
    (EngineState.mk [sampleItem "a" 1 SyncStatus.synced 0,
        sampleItem "b" 2 SyncStatus.pending 0] false).isSyncing = false ∧
    ((EngineState.mk [sampleItem "a" 1 SyncStatus.synced 0,
        sampleItem "b" 2 SyncStatus.pending 0] false).queue.map
          (fun r => r.id)).Nodup ∧
    (countSynced (processSyncQueue okEnv
        (EngineState.mk [sampleItem "a" 1 SyncStatus.synced 0,
          sampleItem "b" 2 SyncStatus.pending 0] false)).1.queue ≤ 100 ∧
     (∀ (q : List SyncItem), ∀ r ∈ q, ¬ r.status = SyncStatus.synced →
        r ∈ prune q) ∧
     (∀ (q : List SyncItem), (q.map (fun r => r.id)).Nodup →
        ∀ r ∈ q, (r ∈ prune q ↔ (¬ r.status = SyncStatus.synced ∨
          r ∈ (List.insertionSort createdGe
            (q.filter (fun x =>
              decide (x.status = SyncStatus.synced)))).take 100))) ∧
     (processSyncQueue okEnv
        (EngineState.mk [sampleItem "a" 1 SyncStatus.synced 0,
          sampleItem "b" 2 SyncStatus.pending 0] false)).1.queue =
       prune (drainPass okEnv
        (EngineState.mk [sampleItem "a" 1 SyncStatus.synced 0,
          sampleItem "b" 2 SyncStatus.pending 0] false).queue).1) :=
  ⟨rfl, by decide,
   c7_prune_keeps_last_100 okEnv
     (EngineState.mk [sampleItem "a" 1 SyncStatus.synced 0,
       sampleItem "b" 2 SyncStatus.pending 0] false) rfl (by decide)⟩

lemma runItems_all_ok_count (env : SyncEnv) (snap : List SyncItem) :
    ∀ (q : List SyncItem) (cnt k : Nat),
      (∀ i ∈ snap, deliverOk env i = true) →
      (runItems env snap q cnt k).2 = cnt + snap.length := by
  induction snap with
  | nil => intro q cnt k _; simp [runItems]
  | cons it rest ih =>
    intro q cnt k hok
    rw [runItems, if_pos (hok it (by simp))]
    rw [ih _ _ _ (fun i hi => hok i (by simp [hi]))]
    rw [List.length_cons]
    omega

lemma runItems_all_ok_synced (env : SyncEnv) (snap : List SyncItem) :
    ∀ (q : List SyncItem) (cnt k : Nat),
      (∀ i ∈ snap, deliverOk env i = true) →
      (∀ r ∈ q, r.status = SyncStatus.synced ∨ ∃ i ∈ snap, i.id = r.id) →
      ∀ r2 ∈ (runItems env snap q cnt k).1,
        r2.status = SyncStatus.synced := by
  induction snap with
  | nil =>
    intro q cnt k _ hinv r2 h2
    rw [runItems] at h2
    rcases hinv r2 h2 with h | ⟨i, hi, _⟩
    · exact h
    · exact absurd hi (List.not_mem_nil i)
  | cons it rest ih =>
    intro q cnt k hok hinv
    rw [runItems, if_pos (hok it (by simp)), syncedStep_eq]
    refine ih _ _ _ (fun i hi => hok i (by simp [hi])) ?_
    intro r2 h2
    obtain ⟨r, hr, hid2, hcase⟩ := of_mem_updateWhere h2 (fun _ => rfl)
    rcases hcase with ⟨heq, hne⟩ | ⟨hri, heq⟩
    · rcases hinv r hr with h | ⟨i, hi, hiid⟩
      · left
        rw [heq]
        exact h
      · rcases List.mem_cons.mp hi with hit | hirest
        · exfalso
          apply hne
          rw [← hiid, hit]
        · right
          refine ⟨i, hirest, ?_⟩
          rw [heq]
          exact hiid
    · left
      rw [heq]

/-- C9 (amended: N at most 100): a single pass over a queue whose only
items are N fresh pending items, with every delivery succeeding,
returns N, leaves the pending count at 0, and leaves exactly N items
synced. -/
theorem c9_drain_all_pending (env : SyncEnv) (s : EngineState)
    (hsyncing : s.isSyncing = false)
    (hpend : ∀ r ∈ s.queue, r.status = SyncStatus.pending ∧
      r.retryCount < MAX_RETRIES)
    (hok : ∀ r ∈ s.queue, deliverOk env r = true)
    (hlen : s.queue.length ≤ 100) :
    (processSyncQueue env s).2 = s.queue.length ∧
    getPendingCount (processSyncQueue env s).1.queue = 0 ∧
    countSynced (processSyncQueue env s).1.queue = s.queue.length := by
  have hns : ¬ (s.isSyncing = true) := by
    rw [hsyncing]; exact Bool.false_ne_true
  have hfilter : s.queue.filter isCandidate = s.queue := by
    refine List.filter_eq_self.mpr (fun r hr => ?_)
    obtain ⟨h1, h2⟩ := hpend r hr
    unfold isCandidate
    simp [h1, h2]
  have hperm : List.Perm (candidates s.queue) s.queue := by
    unfold candidates
    rw [hfilter]
    exact List.perm_insertionSort createdLe s.queue
  have hokc : ∀ i ∈ candidates s.queue, deliverOk env i = true :=
    fun i hi => hok i (candidates_subset hi)
  have hcount : (processSyncQueue env s).2 = s.queue.length := by
    rw [processSyncQueue, if_neg hns]
    show (runItems env (candidates s.queue) s.queue 0 0).2 = _
    rw [runItems_all_ok_count env (candidates s.queue) s.queue 0 0 hokc]
    rw [Nat.zero_add]
    exact hperm.length_eq
  have hsynced : ∀ r2 ∈ (runItems env (candidates s.queue) s.queue 0 0).1,
      r2.status = SyncStatus.synced := by
    refine runItems_all_ok_synced env (candidates s.queue) s.queue 0 0
      hokc ?_
    intro r hr
    exact Or.inr ⟨r, hperm.mem_iff.mpr hr, rfl⟩
  have hlenq : (runItems env (candidates s.queue) s.queue 0 0).1.length =
      s.queue.length := by
    have h2 := congrArg List.length
      (runItems_map_id env (candidates s.queue) s.queue 0 0)
    rwa [List.length_map, List.length_map] at h2
  have hfilterfq : (runItems env (candidates s.queue) s.queue 0 0).1.filter
      (fun r => decide (r.status = SyncStatus.synced)) =
      (runItems env (candidates s.queue) s.queue 0 0).1 :=
    List.filter_eq_self.mpr (fun r hr => by simp [hsynced r hr])
  have hkeep : ∀ r ∈ (runItems env (candidates s.queue) s.queue 0 0).1,
      r.id ∈ keepSyncedIds (runItems env (candidates s.queue) s.queue 0 0).1 := by
    intro r hr
    unfold keepSyncedIds
    rw [hfilterfq]
    have hpermfq : List.Perm
        (List.insertionSort createdGe
          (runItems env (candidates s.queue) s.queue 0 0).1)
        (runItems env (candidates s.queue) s.queue 0 0).1 :=
      List.perm_insertionSort createdGe _
    rw [List.take_of_length_le (by rw [hpermfq.length_eq, hlenq]; exact hlen)]
    exact List.mem_map.mpr ⟨r, hpermfq.mem_iff.mpr hr, rfl⟩
  have hprune : prune (runItems env (candidates s.queue) s.queue 0 0).1 =
      (runItems env (candidates s.queue) s.queue 0 0).1 := by
    unfold prune
    refine List.filter_eq_self.mpr (fun r hr => ?_)
    simp [hkeep r hr]
  have hqueue : (processSyncQueue env s).1.queue =
      (runItems env (candidates s.queue) s.queue 0 0).1 := by
    rw [processSyncQueue, if_neg hns]
    show prune (runItems env (candidates s.queue) s.queue 0 0).1 = _
    exact hprune
  have hnil : (runItems env (candidates s.queue) s.queue 0 0).1.filter
      (fun r => decide (r.status = SyncStatus.pending) ||
        decide (r.status = SyncStatus.failed)) = [] := by
    rw [List.filter_eq_nil_iff]
    intro a ha
    simp [hsynced a ha]
  refine ⟨hcount, ?_, ?_⟩
  · rw [hqueue]
    unfold getPendingCount
    rw [hnil]
    rfl
  · rw [hqueue]
    unfold countSynced
    rw [hfilterfq]
    exact hlenq

theorem c9_witness :
    (EngineState.mk [sampleItem "a" 1 SyncStatus.pending 0,
        sampleItem "b" 2 SyncStatus.pending 0] false).isSyncing = false ∧
    (∀ r ∈ (EngineState.mk [sampleItem "a" 1 SyncStatus.pending 0,
        sampleItem "b" 2 SyncStatus.pending 0] false).queue,
      r.status = SyncStatus.pending ∧ r.retryCount < MAX_RETRIES) ∧
    (∀ r ∈ (EngineState.mk [sampleItem "a" 1 SyncStatus.pending 0,
        sampleItem "b" 2 SyncStatus.pending 0] false).queue,
      deliverOk okEnv r = true) ∧
    (EngineState.mk [sampleItem "a" 1 SyncStatus.pending 0,
        sampleItem "b" 2 SyncStatus.pending 0] false).queue.length ≤ 100 ∧
    ((processSyncQueue okEnv
        (EngineState.mk [sampleItem "a" 1 SyncStatus.pending 0,
          sampleItem "b" 2 SyncStatus.pending 0] false)).2 =
      (EngineState.mk [sampleItem "a" 1 SyncStatus.pending 0,
        sampleItem "b" 2 SyncStatus.pending 0] false).queue.length ∧
     getPendingCount (processSyncQueue okEnv
        (EngineState.mk [sampleItem "a" 1 SyncStatus.pending 0,
          sampleItem "b" 2 SyncStatus.pending 0] false)).1.queue = 0 ∧
     countSynced (processSyncQueue okEnv
        (EngineState.mk [sampleItem "a" 1 SyncStatus.pending 0,
          sampleItem "b" 2 SyncStatus.pending 0] false)).1.queue =
      (EngineState.mk [sampleItem "a" 1 SyncStatus.pending 0,
        sampleItem "b" 2 SyncStatus.pending 0] false).queue.length) :=
  ⟨rfl, by decide, by decide, by decide,
   c9_drain_all_pending okEnv
     (EngineState.mk [sampleItem "a" 1 SyncStatus.pending 0,
       sampleItem "b" 2 SyncStatus.pending 0] false)
     rfl (by decide) (by decide) (by decide)⟩

set_option maxRecDepth 100000 in
/-- C9 counterexample at N = 101: a queue of 101 fresh pending items,
drained in one pass with every delivery succeeding, returns 101 and
leaves the pending count at 0, but only 100 items remain synced — the
prune step deletes the oldest synced row, so the claimed "exactly N
items with status synced" fails for N = 101. -/
theorem c9_counterexample_101 :
    bigPendingQueue.length = 101 ∧
    (∀ r ∈ bigPendingQueue, r.status = SyncStatus.pending ∧
      r.retryCount = 0) ∧
    (∀ r ∈ bigPendingQueue, deliverOk okEnv r = true) ∧
    (processSyncQueue okEnv (EngineState.mk bigPendingQueue false)).2 =
      101 ∧
    getPendingCount (processSyncQueue okEnv
      (EngineState.mk bigPendingQueue false)).1.queue = 0 ∧
    countSynced (processSyncQueue okEnv
      (EngineState.mk bigPendingQueue false)).1.queue = 100 := by
  decide

end EmergencyAlert
